import Mathlib

/-!
Shallow embedding of the motion-control core of FirmwareActionneurs:
the trajectory state machine (`TrajectoryPlanning.cpp` / `TrajectoryPlanning.hpp`)
and the motion scheduler (`MotionControl.cpp`).

Modelling conventions:
* `float32_t` values are modelled as exact real numbers (`ℝ`);
  `atan2f` is modelled by `Complex.arg` (range `(-π, π]`), `sqrtl` by `Real.sqrt`.
* `uint32_t` index arithmetic is modelled exactly where it can wrap
  (`u32sub1` below); the ten-element waypoint arrays are total functions
  `ℕ → ℝ` read through the guarded accessor `arrGet`, whose out-of-range
  branch models an out-of-bounds array access (C++ undefined behaviour).
* Fallible steps (a failed `assert`, an out-of-bounds access) return `Option`:
  `none` means the concrete program has no well-defined successor state.
* Calls into the excluded external collaborators (position servo `Set*`,
  `Enable`/`Disable`, odometry `SetXO`/`SetYO`) are side effects outside the
  modelled state and are dropped; their observable inputs
  (`isPositioningFinished`, the odometry pose, `Telemeter::Detect`) are
  per-tick inputs.
-/

namespace MotionControl

/-- The state_t enumeration of TrajectoryPlanning.hpp. -/
inductive state_t where
  | FREE
  | LINEAR
  | ANGULAR
  | STOP
  | KEEP
  | LINEARPLAN
  | CURVEPLAN
  | STALLX
  | STALLY
  | DRAWPLAN
deriving DecidableEq, Repr

/-- Inputs the trajectory machine reads from the external odometry provider:
the `robot_t` fields used by the source (`Xmm`, `Ymm`, `Lmm` in millimetres,
heading `O`, linear position `L`) together with `GetLinearPosition` and
`GetAngularPosition`. -/
structure Odo where
  Xmm : ℤ
  Ymm : ℤ
  Lmm : ℤ
  O : ℝ
  L : ℝ
  linearPos : ℝ
  angularPos : ℝ

/-- The mutable state of `TrajectoryPlanning`, including the function-static
cursor `n` of `calculateDrawPlan` (field `drawN`). -/
structure TPState where
  status : ℕ
  finished : Bool
  state : state_t
  step : ℤ
  linearSetPoint : ℝ
  linearNextSetPoint : ℝ
  angularSetPoint : ℝ
  stallMode : ℤ
  startTime : ℝ
  startLinearPosition : ℝ
  startAngularPosition : ℝ
  endLinearPosition : ℝ
  endAngularPosition : ℝ
  X : ℕ → ℝ
  Y : ℕ → ℝ
  XYn : ℕ
  drawN : ℕ

/-- Subtraction of 1 on a `uint32_t`, which wraps at zero. -/
def u32sub1 (i : ℕ) : ℕ :=
  (i + 4294967295) % 4294967296

/-- Guarded read of one of the ten-element waypoint arrays; reading any index
outside `0..9` is an out-of-bounds access, modelled by the error branch. -/
def arrGet (f : ℕ → ℝ) (i : ℕ) : Option ℝ :=
  if i < 10 then some (f i) else none

/-- The private helper `TrajectoryPlanning::abs` on `float32_t`. -/
noncomputable def fabs (v : ℝ) : ℝ :=
  if v < 0 then -v else v

/-- First loop of the angle "faster path":
`while ((angularSetPoint - r.O) > _PI_) angularSetPoint -= _2_PI_;`. -/
noncomputable def unwrapSub (a O : ℝ) : ℝ :=
  if h : a - O > Real.pi then unwrapSub (a - 2 * Real.pi) O else a
termination_by (⌈(a - O - Real.pi) / (2 * Real.pi)⌉).toNat
decreasing_by
  have hpi := Real.pi_pos
  have h2 : (0 : ℝ) < 2 * Real.pi := by linarith
  have e : (a - 2 * Real.pi - O - Real.pi) / (2 * Real.pi)
      = (a - O - Real.pi) / (2 * Real.pi) - 1 := by
    field_simp
    ring
  have hpos : 0 < (a - O - Real.pi) / (2 * Real.pi) := div_pos (by linarith) h2
  have h1 : 1 ≤ ⌈(a - O - Real.pi) / (2 * Real.pi)⌉ := Int.ceil_pos.mpr hpos
  simp only [e, Int.ceil_sub_one]
  omega

/-- Second loop of the angle "faster path":
`while ((angularSetPoint - r.O) < -_PI_) angularSetPoint += _2_PI_;`. -/
noncomputable def unwrapAdd (a O : ℝ) : ℝ :=
  if h : a - O < -Real.pi then unwrapAdd (a + 2 * Real.pi) O else a
termination_by (⌈(O - a - Real.pi) / (2 * Real.pi)⌉).toNat
decreasing_by
  have hpi := Real.pi_pos
  have h2 : (0 : ℝ) < 2 * Real.pi := by linarith
  have e : (O - (a + 2 * Real.pi) - Real.pi) / (2 * Real.pi)
      = (O - a - Real.pi) / (2 * Real.pi) - 1 := by
    field_simp
    ring
  have hpos : 0 < (O - a - Real.pi) / (2 * Real.pi) := div_pos (by linarith) h2
  have h1 : 1 ≤ ⌈(O - a - Real.pi) / (2 * Real.pi)⌉ := Int.ceil_pos.mpr hpos
  simp only [e, Int.ceil_sub_one]
  omega

/-- Both unwrap loops, in source order. -/
noncomputable def unwrap (a O : ℝ) : ℝ :=
  unwrapAdd (unwrapSub a O) O

/-- The C `atan2f(y, x)`, modelled exactly by the argument of the complex
number `x + i y` (range `(-π, π]`, `atan2f 0 0 = 0`). -/
noncomputable def atan2f (y x : ℝ) : ℝ :=
  Complex.arg ⟨x, y⟩

/-- TrajectoryPlanning::goLinear: target linear = current linear + delta. -/
def goLinear (s : TPState) (odo : Odo) (linear : ℝ) : TPState :=
  { s with linearSetPoint := odo.linearPos + linear,
           state := state_t.LINEAR, step := 1 }

/-- TrajectoryPlanning::goAngular: absolute angular target. -/
def goAngular (s : TPState) (angular : ℝ) : TPState :=
  { s with angularSetPoint := angular,
           state := state_t.ANGULAR, step := 1 }

/-- TrajectoryPlanning::freewheel. -/
def freewheel (s : TPState) : TPState :=
  { s with state := state_t.FREE, step := 1 }

/-- TrajectoryPlanning::stop (deceleration is a TODO in the source). -/
def stop (s : TPState) : TPState :=
  { s with state := state_t.STOP, step := 1 }

/-- TrajectoryPlanning::gotoXY: bearing and distance to the target point,
with the angular setpoint unwrapped against the current heading. -/
noncomputable def gotoXY (s : TPState) (odo : Odo) (Xt Yt : ℝ) : TPState :=
  let Xm : ℝ := (odo.Xmm : ℝ) / 1000
  let Ym : ℝ := (odo.Ymm : ℝ) / 1000
  let Lm : ℝ := (odo.Lmm : ℝ) / 1000
  { s with
    linearSetPoint := Lm + Real.sqrt ((Xt - Xm) ^ 2 + (Yt - Ym) ^ 2),
    angularSetPoint := unwrap (atan2f (Yt - Ym) (Xt - Xm)) odo.O,
    state := state_t.LINEARPLAN, step := 1 }

/-- TrajectoryPlanning::pushXY. The source runs `assert(n < 10)` before
copying; a failed assert aborts the process, modelled by `none`. -/
def pushXY (s : TPState) (xs ys : ℕ → ℝ) (n : ℕ) : Option TPState :=
  if n < 10 then
    some { s with
      X := fun i => if i < n then xs i else s.X i,
      Y := fun i => if i < n then ys i else s.Y i,
      XYn := n, state := state_t.DRAWPLAN, step := 1 }
  else
    none

/-- TrajectoryPlanning::stallX (the stallMode parameter is accepted but
never used by the source). -/
def stallX (s : TPState) (odo : Odo) (sm : ℤ) : TPState :=
  { s with startLinearPosition := odo.L, startAngularPosition := odo.O,
           endLinearPosition := odo.L - 0, endAngularPosition := 0,
           state := state_t.STALLX, step := 1 }

/-- TrajectoryPlanning::stallY. -/
noncomputable def stallY (s : TPState) (odo : Odo) (sm : ℤ) : TPState :=
  { s with startLinearPosition := odo.L, startAngularPosition := odo.O,
           endLinearPosition := odo.L - 0, endAngularPosition := Real.pi / 2,
           state := state_t.STALLY, step := 1 }

/-- TrajectoryPlanning::calculateGoLinear; `arrived` is the servo input
`isPositioningFinished()`; the servo `Set*` calls are external effects. -/
def calculateGoLinear (s : TPState) (arrived : Bool) : TPState :=
  if s.step = 1 then { s with step := 2 }
  else if s.step = 2 then
    if arrived then { s with step := 3, state := state_t.FREE } else s
  else s

/-- TrajectoryPlanning::calculateGoAngular. -/
def calculateGoAngular (s : TPState) (arrived : Bool) : TPState :=
  if s.step = 1 then { s with step := 2 }
  else if s.step = 2 then
    if arrived then { s with step := 3, state := state_t.FREE } else s
  else s

/-- TrajectoryPlanning::calculateLinearPlan: rotate, wait, pass through,
translate, wait. -/
def calculateLinearPlan (s : TPState) (arrived : Bool) : TPState :=
  if s.step = 1 then { s with step := 2 }
  else if s.step = 2 then
    if arrived then { s with step := 3 } else s
  else if s.step = 3 then { s with step := 4 }
  else if s.step = 4 then { s with step := 5 }
  else if s.step = 5 then
    if arrived then { s with step := 6, state := state_t.FREE } else s
  else s

/-- TrajectoryPlanning::calculateStallX. The `isPositioningFinished` guard of
step 1 is commented out in the source, and the jack contact sensors of step 2
are hardcoded `true`, so both steps advance unconditionally; odometry rebasing
at step 3 is an external effect. -/
def calculateStallX (s : TPState) : TPState :=
  if s.step = 1 then { s with step := 2 }
  else if s.step = 2 then { s with step := 3 }
  else s

/-- TrajectoryPlanning::calculateStallY, same step structure as stall X. -/
def calculateStallY (s : TPState) : TPState :=
  if s.step = 1 then { s with step := 2 }
  else if s.step = 2 then { s with step := 3 }
  else s

/-- The segment-accumulation loop of TrajectoryPlanning::updateXYtoLA:
`for (i = n; i < XYn - 1; i++) linearSetPoint += dist(XY[i-1], XY[i]);`
with `i - 1` computed in `uint32_t` arithmetic. -/
noncomputable def segLoop (X Y : ℕ → ℝ) (XYn : ℕ) (acc : ℝ) (i : ℕ) : Option ℝ :=
  if i < XYn - 1 then
    (arrGet X (u32sub1 i)).bind fun Xp =>
    (arrGet Y (u32sub1 i)).bind fun Yp =>
    (arrGet X i).bind fun Xi =>
    (arrGet Y i).bind fun Yi =>
    segLoop X Y XYn (acc + Real.sqrt ((Xi - Xp) ^ 2 + (Yi - Yp) ^ 2)) (i + 1)
  else some acc
termination_by XYn - 1 - i
decreasing_by omega

/-- TrajectoryPlanning::updateXYtoLA: setpoints towards waypoint `n`, then
(when at least two waypoints are loaded) accumulation of the segment lengths
of the loop above on top of the linear setpoint. -/
noncomputable def updateXYtoLA (s : TPState) (odo : Odo) (n : ℕ) : Option TPState :=
  let Xm : ℝ := (odo.Xmm : ℝ) / 1000
  let Ym : ℝ := (odo.Ymm : ℝ) / 1000
  let Lm : ℝ := (odo.Lmm : ℝ) / 1000
  (arrGet s.X n).bind fun Xn =>
  (arrGet s.Y n).bind fun Yn =>
  let base : ℝ := Lm + Real.sqrt ((Xn - Xm) ^ 2 + (Yn - Ym) ^ 2)
  let asp : ℝ := unwrap (atan2f (Yn - Ym) (Xn - Xm)) odo.O
  if 2 ≤ s.XYn then
    (segLoop s.X s.Y s.XYn base n).map fun lsp =>
      { s with linearSetPoint := lsp, angularSetPoint := asp,
               linearNextSetPoint := base }
  else
    some { s with linearSetPoint := base,
                  angularSetPoint := asp,
                  linearNextSetPoint := base }

/-- Case 2 of TrajectoryPlanning::calculateDrawPlan: recompute the setpoints
for the current cursor, and advance the cursor when the remaining distance to
`linearNextSetPoint` is within the 0.1 m tolerance (`n >= XYn - 1` is a
`uint32_t` comparison). -/
noncomputable def drawStep2 (s : TPState) (odo : Odo) : Option TPState :=
  (updateXYtoLA s odo s.drawN).bind fun t =>
  if fabs (t.linearNextSetPoint - odo.linearPos) ≤ 0.1 then
    let n2 := t.drawN + 1
    let t2 := { t with drawN := n2,
                       step := if n2 ≥ u32sub1 t.XYn then 3 else 2 }
    updateXYtoLA t2 odo n2
  else some t

/-- TrajectoryPlanning::calculateDrawPlan, with the function-static cursor
`n` carried in `drawN`. Case 1 resets the cursor and falls through to case 2;
the `isPositioningFinished` guard of case 4 is commented out in the source so
case 4 finishes unconditionally; the second switch is entirely commented out. -/
noncomputable def calculateDrawPlan (s : TPState) (odo : Odo) : Option TPState :=
  if s.step = 1 then
    let s1 := { s with drawN := 0, step := 2 }
    (updateXYtoLA s1 odo 0).bind fun t => drawStep2 t odo
  else if s.step = 2 then drawStep2 s odo
  else if s.step = 3 then
    (updateXYtoLA s odo s.drawN).map fun t =>
      if fabs (t.linearSetPoint - odo.linearPos) ≤ 0.1 then { t with step := 4 }
      else t
  else if s.step = 4 then
    (updateXYtoLA s odo s.drawN).map fun t =>
      { t with step := 5, state := state_t.FREE }
  else some s

/-- TrajectoryPlanning::update: refresh `finished` and status bit 8 from the
current mode, then dispatch on the mode. `calculateFree`, `calculateStop`,
`calculateKeepPosition`, `calculateMove` and `calculateCurvePlan` only touch
the external servo (or nothing) and so are identities on the modelled state. -/
noncomputable def update (s : TPState) (odo : Odo) (arrived : Bool) : Option TPState :=
  let s1 :=
    if s.state ≠ state_t.FREE ∧ s.state ≠ state_t.STOP then
      { s with status := s.status ||| 256, finished := false }
    else
      { s with status := s.status &&& 65279, finished := true }
  match s1.state with
  | state_t.LINEAR => some (calculateGoLinear s1 arrived)
  | state_t.ANGULAR => some (calculateGoAngular s1 arrived)
  | state_t.FREE => some s1
  | state_t.STOP => some s1
  | state_t.KEEP => some s1
  | state_t.LINEARPLAN => some (calculateLinearPlan s1 arrived)
  | state_t.DRAWPLAN => calculateDrawPlan s1 odo
  | state_t.CURVEPLAN => some s1
  | state_t.STALLX => some (calculateStallX s1)
  | state_t.STALLY => some (calculateStallY s1)

/-- TrajectoryPlanning::Compute: set status bit 0 and run one update; the
period argument is informational only. -/
noncomputable def tpCompute (s : TPState) (period : ℝ) (odo : Odo)
    (arrived : Bool) : Option TPState :=
  update { s with status := s.status ||| 1 } odo arrived

/-- TrajectoryPlanning::GetStep (the `int32_t` step cast to `uint32_t`). -/
def GetStep (s : TPState) : ℕ :=
  (s.step % 4294967296).toNat

/-- The state established by the TrajectoryPlanning constructor. Only slot 0
of each waypoint array is initialised by the source; the remaining slots hold
arbitrary uninitialised values `xj`/`yj`. -/
def initTP (xj yj : ℕ → ℝ) : TPState :=
  { status := 0, finished := true, state := state_t.FREE, step := 0,
    linearSetPoint := 0, linearNextSetPoint := 0, angularSetPoint := 0,
    stallMode := 0, startTime := 0, startLinearPosition := 0,
    startAngularPosition := 0, endLinearPosition := 0, endAngularPosition := 0,
    X := fun i => if i = 0 then 0 else xj i,
    Y := fun i => if i = 0 then 0 else yj i,
    XYn := 0, drawN := 0 }

/-- Iterated update ticks with per-tick odometry and servo-arrival inputs. -/
noncomputable def ticksTP (os : ℕ → Odo) (as : ℕ → Bool) :
    ℕ → TPState → Option TPState
  | 0, s => some s
  | k + 1, s => (update s (os k) (as k)).bind (ticksTP os as k)

/-- The `cmd_t` commands dispatched by `FBMotionControl::Compute`
(`CMD_ID_GOLIN`, `CMD_ID_GOANG`, `CMD_ID_GOTO`). -/
inductive cmd_t where
  | goLin (d : ℝ)
  | goAng (a : ℝ)
  | goTo (x y : ℝ)

/-- The scheduler state of `FBMotionControl`: status word, operating flags,
the function-static rate divider `localTime` of `Compute`, the bounded
command queue `Qorders` (capacity 10, front of the list popped first) and the
owned trajectory machine. -/
structure MCState where
  status : ℕ
  enable : Bool
  safeguard : Bool
  localTime : ℕ
  queue : List cmd_t
  tp : TPState

/-- Per-tick external inputs of `FBMotionControl::Compute`: the measured
period, the forward telemeter reading, the odometry pose and the servo
arrival flag. -/
structure MCInput where
  period : ℝ
  detect : Bool
  odo : Odo
  arrived : Bool

/-- Observable actions of one `FBMotionControl::Compute` call, next to the
successor state: the order popped from the queue (if any) and the period
hint passed to `TrajectoryPlanning::Compute` (if it was invoked). -/
structure MCResult where
  st : MCState
  popped : Option cmd_t
  tpArg : Option ℝ

/-- Modelled from the spec: `FBMotionControl::Stop` is declared in
`MotionControl.hpp`, which is not part of the sources; per the spec the
obstacle reaction immediately issues `Stop` to the trajectory state machine,
i.e. `TrajectoryPlanning::stop`. -/
def mcStop (mc : MCState) : MCState :=
  { mc with tp := stop mc.tp }

/-- Dispatch of a popped command in `FBMotionControl::Compute`. -/
noncomputable def applyCmd (s : TPState) (odo : Odo) : cmd_t → TPState
  | cmd_t.goLin d => goLinear s odo d
  | cmd_t.goAng a => goAngular s a
  | cmd_t.goTo x y => gotoXY s odo x y

/-- FBMotionControl::Compute. Base period 5 ms; the telemeter check and the
trajectory schedule both run at 200 ms, position control at 100 ms (external,
not part of the modelled state). Status bits are refreshed first; when
disabled no sub-schedule is dispatched. The trajectory block pops at most one
order, only when the machine is finished, and then unconditionally computes
the trajectory machine with the hint `period * 200 / 5`. -/
noncomputable def MCCompute (mc : MCState) (inp : MCInput) : Option MCResult :=
  let st0 := if mc.enable then mc.status ||| 1 else mc.status &&& 65534
  let st1 := if mc.safeguard then st0 ||| 2 else st0 &&& 65533
  let st2 := if mc.tp.finished then st1 ||| 256 else st1 &&& 65279
  let mc1 := { mc with status := st2, localTime := mc.localTime + 5 }
  if mc1.enable = false then some { st := mc1, popped := none, tpArg := none }
  else
    let mc2 :=
      if mc1.localTime % 200 = 0 ∧ inp.detect = true then mcStop mc1 else mc1
    if mc1.localTime % 200 = 0 then
      let pr :=
        if mc2.tp.finished = true then
          match mc2.queue with
          | [] => (mc2, (none : Option cmd_t))
          | c :: rest =>
            ({ mc2 with queue := rest, tp := applyCmd mc2.tp inp.odo c }, some c)
        else (mc2, (none : Option cmd_t))
      let arg := inp.period * 200 / 5
      (tpCompute pr.1.tp arg inp.odo inp.arrived).map fun tp2 =>
        { st := { pr.1 with tp := tp2 }, popped := pr.2, tpArg := some arg }
    else some { st := mc2, popped := none, tpArg := none }

/-- The scheduler state established by the FBMotionControl constructor:
status cleared, enabled, safeguard armed, rate divider at zero, empty queue. -/
def initMC (tp0 : TPState) : MCState :=
  { status := 0, enable := true, safeguard := true, localTime := 0,
    queue := [], tp := tp0 }

/-- Zero function used for uninitialised array slots in concrete states. -/
def zf : ℕ → ℝ := fun _ => 0

/-- Concrete constructor state with zeroed uninitialised slots. -/
def initTP0 : TPState := initTP zf zf

/-- Concrete odometry sample at the origin with heading 0. -/
def odoZ : Odo :=
  { Xmm := 0, Ymm := 0, Lmm := 0, O := 0, L := 0, linearPos := 0, angularPos := 0 }

/-- Concrete odometry sample at the origin with heading `π`. -/
noncomputable def odoPi : Odo :=
  { Xmm := 0, Ymm := 0, Lmm := 0, O := Real.pi, L := 0, linearPos := 0,
    angularPos := 0 }

/-- Concrete trajectory state: mode Linear, polling step 2. -/
def uLIN2 : TPState := { initTP0 with state := state_t.LINEAR, step := 2 }

/-- Idle constructor-shape invariant: mode Free, step 0, finished, clear
status word. -/
def freeIdle (s : TPState) : Prop :=
  s.state = state_t.FREE ∧ s.step = 0 ∧ s.finished = true ∧ s.status = 0

/-- Concrete DrawPlan state: waypoints (0,0), (1,0), (5,0), cursor 1. -/
noncomputable def s5 : TPState :=
  { initTP0 with
    X := fun i => if i = 1 then 1 else if i = 2 then 5 else 0,
    Y := fun _ => 0,
    XYn := 3, state := state_t.DRAWPLAN, step := 2, drawN := 1 }

/-- Concrete in-progress trajectory state (Linear, step 2, not finished). -/
def uLIN2f : TPState := { uLIN2 with finished := false }

/-- Concrete scheduler state one base tick before an obstacle-rate tick,
with an in-progress Linear order. -/
def mcW3 : MCState :=
  { status := 0, enable := true, safeguard := true, localTime := 195,
    queue := [], tp := uLIN2f }

/-- Concrete scheduler input with the telemeter reporting an obstruction. -/
def inpW3 : MCInput :=
  { period := 5, detect := true, odo := odoZ, arrived := false }

/-- Concrete scheduler state one base tick before a trajectory-rate tick,
idle, with one queued GoLinear order. -/
def mcW8 : MCState :=
  { status := 0, enable := true, safeguard := true, localTime := 195,
    queue := [cmd_t.goLin 1], tp := initTP0 }

/-- Concrete scheduler input with no obstruction. -/
def inpW8 : MCInput :=
  { period := 5, detect := false, odo := odoZ, arrived := false }

/-- Helper: the source helper `abs` is the absolute value. -/
theorem fabs_eq_abs (v : ℝ) : fabs v = |v| := by
  unfold fabs
  rcases lt_or_le v 0 with h | h
  · rw [if_pos h, abs_of_neg h]
  · rw [if_neg (not_lt.mpr h), abs_of_nonneg h]

/-- Helper: termination measure step for the first unwrap loop. -/
theorem unwrapMeasureSub (a O : ℝ) (h : a - O > Real.pi) :
    (⌈(a - 2 * Real.pi - O - Real.pi) / (2 * Real.pi)⌉).toNat
      < (⌈(a - O - Real.pi) / (2 * Real.pi)⌉).toNat := by
  have hpi := Real.pi_pos
  have h2 : (0 : ℝ) < 2 * Real.pi := by linarith
  have e : (a - 2 * Real.pi - O - Real.pi) / (2 * Real.pi)
      = (a - O - Real.pi) / (2 * Real.pi) - 1 := by
    field_simp
    ring
  have hpos : 0 < (a - O - Real.pi) / (2 * Real.pi) := div_pos (by linarith) h2
  have h1 : 1 ≤ ⌈(a - O - Real.pi) / (2 * Real.pi)⌉ := Int.ceil_pos.mpr hpos
  rw [e, Int.ceil_sub_one]
  omega

/-- Helper: termination measure step for the second unwrap loop. -/
theorem unwrapMeasureAdd (a O : ℝ) (h : a - O < -Real.pi) :
    (⌈(O - (a + 2 * Real.pi) - Real.pi) / (2 * Real.pi)⌉).toNat
      < (⌈(O - a - Real.pi) / (2 * Real.pi)⌉).toNat := by
  have hpi := Real.pi_pos
  have h2 : (0 : ℝ) < 2 * Real.pi := by linarith
  have e : (O - (a + 2 * Real.pi) - Real.pi) / (2 * Real.pi)
      = (O - a - Real.pi) / (2 * Real.pi) - 1 := by
    field_simp
    ring
  have hpos : 0 < (O - a - Real.pi) / (2 * Real.pi) := div_pos (by linarith) h2
  have h1 : 1 ≤ ⌈(O - a - Real.pi) / (2 * Real.pi)⌉ := Int.ceil_pos.mpr hpos
  rw [e, Int.ceil_sub_one]
  omega

/-- The first unwrap loop exits with a difference of at most `π`. -/
theorem unwrapSub_sub_le (a O : ℝ) : unwrapSub a O - O ≤ Real.pi := by
  rw [unwrapSub]
  split_ifs with h
  · exact unwrapSub_sub_le (a - 2 * Real.pi) O
  · linarith [not_lt.mp h]
termination_by (⌈(a - O - Real.pi) / (2 * Real.pi)⌉).toNat
decreasing_by exact unwrapMeasureSub a O h

/-- The second unwrap loop exits with a difference of at least `-π`. -/
theorem unwrapAdd_ge (a O : ℝ) : -Real.pi ≤ unwrapAdd a O - O := by
  rw [unwrapAdd]
  split_ifs with h
  · exact unwrapAdd_ge (a + 2 * Real.pi) O
  · linarith [not_lt.mp h]
termination_by (⌈(O - a - Real.pi) / (2 * Real.pi)⌉).toNat
decreasing_by exact unwrapMeasureAdd a O h

/-- The second unwrap loop never pushes the difference above `π`. -/
theorem unwrapAdd_le (a O : ℝ) (h0 : a - O ≤ Real.pi) :
    unwrapAdd a O - O ≤ Real.pi := by
  rw [unwrapAdd]
  split_ifs with h
  · have hpi := Real.pi_pos
    exact unwrapAdd_le (a + 2 * Real.pi) O (by linarith)
  · exact h0
termination_by (⌈(O - a - Real.pi) / (2 * Real.pi)⌉).toNat
decreasing_by exact unwrapMeasureAdd a O h

/-- The first unwrap loop shifts its input by a whole number of turns. -/
theorem unwrapSub_shift (a O : ℝ) :
    ∃ k : ℤ, unwrapSub a O = a + 2 * Real.pi * k := by
  rw [unwrapSub]
  split_ifs with h
  · obtain ⟨k, hk⟩ := unwrapSub_shift (a - 2 * Real.pi) O
    refine ⟨k - 1, ?_⟩
    rw [hk]
    push_cast
    ring
  · exact ⟨0, by simp⟩
termination_by (⌈(a - O - Real.pi) / (2 * Real.pi)⌉).toNat
decreasing_by exact unwrapMeasureSub a O h

/-- The second unwrap loop shifts its input by a whole number of turns. -/
theorem unwrapAdd_shift (a O : ℝ) :
    ∃ k : ℤ, unwrapAdd a O = a + 2 * Real.pi * k := by
  rw [unwrapAdd]
  split_ifs with h
  · obtain ⟨k, hk⟩ := unwrapAdd_shift (a + 2 * Real.pi) O
    refine ⟨k + 1, ?_⟩
    rw [hk]
    push_cast
    ring
  · exact ⟨0, by simp⟩
termination_by (⌈(O - a - Real.pi) / (2 * Real.pi)⌉).toNat
decreasing_by exact unwrapMeasureAdd a O h

/-- The composed unwrap lands in the closed interval `[O - π, O + π]`. -/
theorem unwrap_mem_Icc (a O : ℝ) :
    unwrap a O ∈ Set.Icc (O - Real.pi) (O + Real.pi) := by
  unfold unwrap
  constructor
  · linarith [unwrapAdd_ge (unwrapSub a O) O]
  · linarith [unwrapAdd_le (unwrapSub a O) O (by linarith [unwrapSub_sub_le a O])]

/-- The composed unwrap shifts its input by a whole number of turns. -/
theorem unwrap_shift (a O : ℝ) :
    ∃ k : ℤ, unwrap a O = a + 2 * Real.pi * k := by
  obtain ⟨k1, h1⟩ := unwrapSub_shift a O
  obtain ⟨k2, h2⟩ := unwrapAdd_shift (unwrapSub a O) O
  refine ⟨k1 + k2, ?_⟩
  rw [unwrap, h2, h1]
  push_cast
  ring

/-- Claim C1: for every pose and every `gotoXY(x, y)` order, the stored
linear setpoint is the current cumulative linear position plus the Euclidean
distance to the target, and the stored angular setpoint is `atan2f` of the
displacement shifted by a whole number of turns so that it lies within the
CLOSED interval `[heading - π, heading + π]` (amended from the half-open
interval `(heading - π, heading + π]` of the original claim: the lower
boundary is attained, see the counterexample). -/
theorem gotoXY_setpoints (s : TPState) (odo : Odo) (Xt Yt : ℝ) :
    (gotoXY s odo Xt Yt).linearSetPoint
      = (odo.Lmm : ℝ) / 1000
        + Real.sqrt ((Xt - (odo.Xmm : ℝ) / 1000) ^ 2
            + (Yt - (odo.Ymm : ℝ) / 1000) ^ 2)
    ∧ (∃ k : ℤ, (gotoXY s odo Xt Yt).angularSetPoint
        = atan2f (Yt - (odo.Ymm : ℝ) / 1000) (Xt - (odo.Xmm : ℝ) / 1000)
          + 2 * Real.pi * k)
    ∧ (gotoXY s odo Xt Yt).angularSetPoint
        ∈ Set.Icc (odo.O - Real.pi) (odo.O + Real.pi)
    ∧ (gotoXY s odo Xt Yt).state = state_t.LINEARPLAN
    ∧ (gotoXY s odo Xt Yt).step = 1 := by
  refine ⟨rfl, ?_, ?_, rfl, rfl⟩
  · exact unwrap_shift _ odo.O
  · exact unwrap_mem_Icc _ odo.O

/-- Claim C1 counterexample: at pose `(0, 0)` with heading exactly `π`, the
order `gotoXY(1, 0)` has bearing `atan2f(0, 1) = 0`; neither unwrap loop
fires, so the stored angular setpoint is `0 = heading - π`, which lies
outside the half-open interval `(heading - π, heading + π]` required by the
claim (its signed difference to the heading is `-π`, not in `(-π, π]`). -/
theorem gotoXY_boundary_cex :
    (gotoXY initTP0 odoPi 1 0).angularSetPoint = odoPi.O - Real.pi
    ∧ (gotoXY initTP0 odoPi 1 0).angularSetPoint
        ∉ Set.Ioc (odoPi.O - Real.pi) (odoPi.O + Real.pi) := by
  have hpi := Real.pi_pos
  have harg : atan2f ((0 : ℝ) - (odoPi.Ymm : ℝ) / 1000)
      ((1 : ℝ) - (odoPi.Xmm : ℝ) / 1000) = 0 := by
    have h1 : ((0 : ℝ) - (odoPi.Ymm : ℝ) / 1000) = 0 := by
      simp [odoPi]
    have h2 : ((1 : ℝ) - (odoPi.Xmm : ℝ) / 1000) = 1 := by
      simp [odoPi]
    rw [h1, h2]
    unfold atan2f
    have : (⟨1, 0⟩ : ℂ) = 1 := Complex.ext (by simp) (by simp)
    rw [this, Complex.arg_one]
  have hsub : unwrapSub 0 odoPi.O = 0 := by
    rw [unwrapSub, dif_neg]
    simp only [odoPi]
    intro hc
    linarith
  have hadd : unwrapAdd 0 odoPi.O = 0 := by
    rw [unwrapAdd, dif_neg]
    simp only [odoPi]
    intro hc
    linarith
  have hval : (gotoXY initTP0 odoPi 1 0).angularSetPoint = 0 := by
    show unwrap (atan2f ((0 : ℝ) - (odoPi.Ymm : ℝ) / 1000)
        ((1 : ℝ) - (odoPi.Xmm : ℝ) / 1000)) odoPi.O = 0
    rw [harg, unwrap, hsub, hadd]
  constructor
  · rw [hval]
    simp [odoPi]
  · rw [hval]
    simp only [Set.mem_Ioc, odoPi, not_and, not_le]
    intro hc
    linarith

/-- Claim C2 (amended): `pushXY` runs `assert(n < 10)`, so a FollowPath order
with at most 9 waypoints is accepted (first `n` slots copied, `XYn := n`,
mode `DRAWPLAN`, step 1, remaining slots untouched), while an order with 10
or more waypoints fails the assertion at issue time — which aborts the
process (no successor state) rather than gracefully leaving the machine in
its previous mode, and in particular an order with exactly 10 waypoints is
NOT accepted. -/
theorem pushXY_accepts (s : TPState) (xs ys : ℕ → ℝ) (n : ℕ) :
    (n < 10 → ∃ t, pushXY s xs ys n = some t
      ∧ t.state = state_t.DRAWPLAN ∧ t.step = 1 ∧ t.XYn = n
      ∧ (∀ i, i < n → t.X i = xs i ∧ t.Y i = ys i)
      ∧ (∀ i, n ≤ i → t.X i = s.X i ∧ t.Y i = s.Y i))
    ∧ (10 ≤ n → pushXY s xs ys n = none) := by
  constructor
  · intro h
    refine ⟨_, by rw [pushXY, if_pos h], rfl, rfl, rfl, ?_, ?_⟩
    · intro i hi
      constructor <;> simp [hi]
    · intro i hi
      constructor <;> simp [Nat.not_lt.mpr hi]
  · intro h
    rw [pushXY, if_neg (Nat.not_lt.mpr h)]

/-- Claim C2 witness: a 3-waypoint order is accepted into mode DRAWPLAN and a
12-waypoint order is rejected. -/
theorem pushXY_accepts_witness :
    (∃ t, pushXY initTP0 zf zf 3 = some t ∧ t.state = state_t.DRAWPLAN
       ∧ t.step = 1 ∧ t.XYn = 3)
    ∧ pushXY initTP0 zf zf 12 = none := by
  constructor
  · obtain ⟨t, h1, h2, h3, h4, -⟩ :=
      (pushXY_accepts initTP0 zf zf 3).1 (by norm_num)
    exact ⟨t, h1, h2, h3, h4⟩
  · exact (pushXY_accepts initTP0 zf zf 12).2 (by norm_num)

/-- Claim C2 counterexample: a FollowPath order with exactly 10 waypoints —
"up to 10" must be accepted according to the claim — fails `assert(n < 10)`
and has no successor state (the assert aborts the process, so the rejection
is not the graceful keep-previous-mode rejection the claim describes). -/
theorem pushXY_ten_cex : pushXY initTP0 zf zf 10 = none := by
  rw [pushXY, if_neg (by norm_num)]

/-- Helper: a successful `updateXYtoLA` only rewrites the three setpoints;
every other field survives, the accessed index is in range, and
`linearNextSetPoint` is the distance-to-waypoint setpoint before segment
accumulation. -/
theorem updateXYtoLA_some {s : TPState} {odo : Odo} {n : ℕ} {t : TPState}
    (h : updateXYtoLA s odo n = some t) :
    t.finished = s.finished ∧ t.state = s.state ∧ t.step = s.step
    ∧ t.drawN = s.drawN ∧ t.X = s.X ∧ t.Y = s.Y ∧ t.XYn = s.XYn
    ∧ t.status = s.status ∧ n < 10
    ∧ t.linearNextSetPoint
        = (odo.Lmm : ℝ) / 1000
          + Real.sqrt ((s.X n - (odo.Xmm : ℝ) / 1000) ^ 2
              + (s.Y n - (odo.Ymm : ℝ) / 1000) ^ 2) := by
  rw [updateXYtoLA] at h
  simp only [arrGet] at h
  by_cases h10 : n < 10
  · simp only [if_pos h10, Option.some_bind] at h
    by_cases h2 : 2 ≤ s.XYn
    · rw [if_pos h2] at h
      obtain ⟨lsp, hseg, ht⟩ := Option.map_eq_some'.mp h
      subst ht
      refine ⟨rfl, rfl, rfl, rfl, rfl, rfl, rfl, rfl, h10, rfl⟩
    · rw [if_neg h2] at h
      obtain ht := Option.some_inj.mp h
      subst ht
      refine ⟨rfl, rfl, rfl, rfl, rfl, rfl, rfl, rfl, h10, rfl⟩
  · simp [if_neg h10] at h

/-- Helper: `drawStep2` preserves `finished`. -/
theorem drawStep2_finished {s : TPState} {odo : Odo} {t : TPState}
    (h : drawStep2 s odo = some t) : t.finished = s.finished := by
  rw [drawStep2] at h
  obtain ⟨t1, h1, h2⟩ := Option.bind_eq_some.mp h
  split_ifs at h2 with htol
  · have e1 := (updateXYtoLA_some h1).1
    have e2 := (updateXYtoLA_some h2).1
    rw [e2, e1]
  · obtain ht := Option.some_inj.mp h2
    subst ht
    exact (updateXYtoLA_some h1).1

/-- Helper: `calculateDrawPlan` preserves `finished`. -/
theorem calculateDrawPlan_finished {s : TPState} {odo : Odo} {t : TPState}
    (h : calculateDrawPlan s odo = some t) : t.finished = s.finished := by
  rw [calculateDrawPlan] at h
  split_ifs at h with h1 h2 h3 h4
  · obtain ⟨t1, ha, hb⟩ := Option.bind_eq_some.mp h
    have e1 := (updateXYtoLA_some ha).1
    have e2 := drawStep2_finished hb
    rw [e2, e1]
  · exact drawStep2_finished h
  · obtain ⟨t1, ha, hb⟩ := Option.map_eq_some'.mp h
    have e1 := (updateXYtoLA_some ha).1
    subst hb
    split_ifs <;> exact e1
  · obtain ⟨t1, ha, hb⟩ := Option.map_eq_some'.mp h
    have e1 := (updateXYtoLA_some ha).1
    subst hb
    exact e1
  · obtain ht := Option.some_inj.mp h
    subst ht
    rfl

/-- Helper: the two-step dispatch helpers preserve `finished`. -/
theorem calculateGoLinear_finished (s : TPState) (a : Bool) :
    (calculateGoLinear s a).finished = s.finished := by
  rw [calculateGoLinear]
  split_ifs <;> rfl

theorem calculateGoAngular_finished (s : TPState) (a : Bool) :
    (calculateGoAngular s a).finished = s.finished := by
  rw [calculateGoAngular]
  split_ifs <;> rfl

theorem calculateLinearPlan_finished (s : TPState) (a : Bool) :
    (calculateLinearPlan s a).finished = s.finished := by
  rw [calculateLinearPlan]
  split_ifs <;> rfl

theorem calculateStallX_finished (s : TPState) :
    (calculateStallX s).finished = s.finished := by
  rw [calculateStallX]
  split_ifs <;> rfl

theorem calculateStallY_finished (s : TPState) :
    (calculateStallY s).finished = s.finished := by
  rw [calculateStallY]
  split_ifs <;> rfl

/-- Claim C4 (amended): after every update tick that yields a successor
state, `finished` is true exactly when the mode AT THE START of that tick was
Free or Stop. The unamended equivalence ("in every reachable state, also
between an order and the next tick") fails: the order operations do not
touch `finished`, and a tick that leaves Linear for Free keeps
`finished = false` until the following tick (see the counterexample). -/
theorem update_finished_iff (s : TPState) (odo : Odo) (arr : Bool)
    (t : TPState) (h : update s odo arr = some t) :
    (t.finished = true ↔ (s.state = state_t.FREE ∨ s.state = state_t.STOP)) := by
  obtain ⟨st, fin, mo, sp, v1, v2, v3, v4, v5, v6, v7, v8, v9, Xf, Yf, xyn, dn⟩ := s
  cases mo
  case FREE =>
    simp only [update, ne_eq, not_true_eq_false, false_and, if_false,
      Option.some.injEq] at h
    subst h
    simp
  case STOP =>
    simp only [update] at h
    rw [if_neg (by simp)] at h
    simp only [Option.some.injEq] at h
    subst h
    simp
  case LINEAR =>
    simp only [update] at h
    rw [if_pos (by simp)] at h
    simp only [Option.some.injEq] at h
    subst h
    rw [calculateGoLinear_finished]
    simp
  case ANGULAR =>
    simp only [update] at h
    rw [if_pos (by simp)] at h
    simp only [Option.some.injEq] at h
    subst h
    rw [calculateGoAngular_finished]
    simp
  case KEEP =>
    simp only [update] at h
    rw [if_pos (by simp)] at h
    simp only [Option.some.injEq] at h
    subst h
    simp
  case LINEARPLAN =>
    simp only [update] at h
    rw [if_pos (by simp)] at h
    simp only [Option.some.injEq] at h
    subst h
    rw [calculateLinearPlan_finished]
    simp
  case CURVEPLAN =>
    simp only [update] at h
    rw [if_pos (by simp)] at h
    simp only [Option.some.injEq] at h
    subst h
    simp
  case STALLX =>
    simp only [update] at h
    rw [if_pos (by simp)] at h
    simp only [Option.some.injEq] at h
    subst h
    rw [calculateStallX_finished]
    simp
  case STALLY =>
    simp only [update] at h
    rw [if_pos (by simp)] at h
    simp only [Option.some.injEq] at h
    subst h
    rw [calculateStallY_finished]
    simp
  case DRAWPLAN =>
    simp only [update] at h
    rw [if_pos (by simp)] at h
    rw [calculateDrawPlan_finished h]
    simp

/-- Claim C4 witness: one tick from the constructor state keeps the
equivalence (mode Free, `finished` true). -/
theorem update_finished_iff_witness :
    ∃ t, update initTP0 odoZ false = some t ∧ t.finished = true := by
  have h : update initTP0 odoZ false
      = some { initTP0 with status := initTP0.status &&& 65279, finished := true } := by
    rfl
  exact ⟨_, h, (update_finished_iff initTP0 odoZ false _ h).mpr (Or.inl rfl)⟩

/-- Claim C4 counterexample: issuing `goLinear` on the idle constructor state
puts the machine in mode Linear while `finished` is still true — the claimed
equivalence does not hold in the interval between issuing an order and the
next update tick. -/
theorem finished_lag_cex :
    (goLinear initTP0 odoZ 1).finished = true
    ∧ (goLinear initTP0 odoZ 1).state ≠ state_t.FREE
    ∧ (goLinear initTP0 odoZ 1).state ≠ state_t.STOP := by
  refine ⟨rfl, by simp [goLinear], by simp [goLinear]⟩

/-- Claim C7 (amended): `goLinear(d)` stores linear setpoint
`currentLinear + d` and resets the machine to mode Linear, step 1, but
leaves `finished` UNCHANGED (so `isFinished()` still reports the pre-issue
value immediately after issue, not false). From the first update tick after
the issue `finished` is false; while the servo has not reported arrival the
machine stays in Linear step 2 with `finished` false; the tick at which the
arrival observer reports true moves the mode to Free (still with `finished`
false on that tick), and `finished` becomes true at the following tick, i.e.
only after `isPositioningFinished` has reported true. -/
theorem goLinear_protocol (s : TPState) (odo : Odo) (d : ℝ) :
    (goLinear s odo d).linearSetPoint = odo.linearPos + d
    ∧ (goLinear s odo d).state = state_t.LINEAR
    ∧ (goLinear s odo d).step = 1
    ∧ (goLinear s odo d).finished = s.finished
    ∧ (∀ o a, ∃ t, update (goLinear s odo d) o a = some t
        ∧ t.finished = false ∧ t.state = state_t.LINEAR ∧ t.step = 2)
    ∧ (∀ (u : TPState) o, u.state = state_t.LINEAR → u.step = 2 →
        (∃ t, update u o false = some t
          ∧ t.finished = false ∧ t.state = state_t.LINEAR ∧ t.step = 2)
        ∧ (∃ t, update u o true = some t
          ∧ t.finished = false ∧ t.state = state_t.FREE ∧ t.step = 3))
    ∧ (∀ (u : TPState) o a, u.state = state_t.FREE →
        ∃ t, update u o a = some t ∧ t.finished = true) := by
  refine ⟨rfl, rfl, rfl, rfl, ?_, ?_, ?_⟩
  · intro o a
    exact ⟨_, rfl, rfl, rfl, rfl⟩
  · intro u o hs hp
    obtain ⟨st, fin, mo, sp, v1, v2, v3, v4, v5, v6, v7, v8, v9, Xf, Yf, xyn, dn⟩ := u
    simp only at hs hp
    subst hs
    subst hp
    exact ⟨⟨_, rfl, rfl, rfl, rfl⟩, ⟨_, rfl, rfl, rfl, rfl⟩⟩
  · intro u o a hs
    obtain ⟨st, fin, mo, sp, v1, v2, v3, v4, v5, v6, v7, v8, v9, Xf, Yf, xyn, dn⟩ := u
    simp only at hs
    subst hs
    exact ⟨_, rfl, rfl⟩

/-- Claim C7 witness: from mode Linear at step 2, a tick with the arrival
observer reporting true moves the machine to Free at step 3 with `finished`
still false on that tick. -/
theorem goLinear_protocol_witness :
    ∃ t, update uLIN2 odoZ true = some t ∧ t.finished = false
      ∧ t.state = state_t.FREE ∧ t.step = 3 :=
  (((goLinear_protocol initTP0 odoZ 1).2.2.2.2.2.1) uLIN2 odoZ rfl rfl).2

/-- Claim C7 counterexample: immediately after issuing `goLinear` on the
idle constructor state, `isFinished()` still returns true (the issue does
not clear `finished`; it is cleared only by the next update tick), refuting
the claim that `isFinished()` is false immediately after the issue. -/
theorem goLinear_immediate_cex : (goLinear initTP0 odoZ 1).finished = true := rfl

/-- Helper: one update tick preserves the idle constructor shape. -/
theorem update_freeIdle {s : TPState} {o : Odo} {a : Bool} {m : TPState}
    (hI : freeIdle s) (h : update s o a = some m) : freeIdle m := by
  obtain ⟨st, fin, mo, sp, v1, v2, v3, v4, v5, v6, v7, v8, v9, Xf, Yf, xyn, dn⟩ := s
  obtain ⟨h1, h2, h3, h4⟩ := hI
  simp only at h1 h2 h3 h4
  subst h1
  subst h2
  subst h3
  subst h4
  simp only [update, ne_eq, not_true_eq_false, false_and, if_false,
    Option.some.injEq] at h
  subst h
  refine ⟨rfl, rfl, rfl, by simp⟩

/-- Helper: any number of update ticks preserves the idle constructor
shape. -/
theorem ticksTP_freeIdle (os : ℕ → Odo) (as : ℕ → Bool) :
    ∀ (k : ℕ) (s t : TPState), freeIdle s → ticksTP os as k s = some t →
      freeIdle t := by
  intro k
  induction k with
  | zero =>
    intro s t hI h
    rw [ticksTP] at h
    obtain ht := Option.some_inj.mp h
    subst ht
    exact hI
  | succ n ih =>
    intro s t hI h
    rw [ticksTP] at h
    obtain ⟨m, hm, hrest⟩ := Option.bind_eq_some.mp h
    exact ih m t (update_freeIdle hI hm) hrest

/-- Claim C10: immediately after construction the machine is in mode Free
with `finished` true, the status word 0 and step counter 0 (`GetStep() = 0`);
the step stays 0 through any number of plain update ticks, and takes the
value 1 — hence a value at least 1 — exactly through the order operations,
each of which resets step to 1. -/
theorem constructor_spec (xj yj : ℕ → ℝ) (os : ℕ → Odo) (as : ℕ → Bool) :
    (initTP xj yj).state = state_t.FREE
    ∧ (initTP xj yj).finished = true
    ∧ (initTP xj yj).status = 0
    ∧ (initTP xj yj).step = 0
    ∧ GetStep (initTP xj yj) = 0
    ∧ (∀ k t, ticksTP os as k (initTP xj yj) = some t →
        t.step = 0 ∧ t.state = state_t.FREE ∧ t.finished = true ∧ t.status = 0)
    ∧ (∀ (u : TPState) odo d ang x y sm xs ys,
        (goLinear u odo d).step = 1 ∧ (goAngular u ang).step = 1
        ∧ (freewheel u).step = 1 ∧ (stop u).step = 1
        ∧ (gotoXY u odo x y).step = 1
        ∧ (stallX u odo sm).step = 1 ∧ (stallY u odo sm).step = 1
        ∧ (∀ n t, pushXY u xs ys n = some t → t.step = 1)) := by
  refine ⟨rfl, rfl, rfl, rfl, rfl, ?_, ?_⟩
  · intro k t h
    have hI : freeIdle (initTP xj yj) := ⟨rfl, rfl, rfl, rfl⟩
    obtain ⟨a1, a2, a3, a4⟩ := ticksTP_freeIdle os as k (initTP xj yj) t hI h
    exact ⟨a2, a1, a3, a4⟩
  · intro u odo d ang x y sm xs ys
    refine ⟨rfl, rfl, rfl, rfl, rfl, rfl, rfl, ?_⟩
    intro n t h
    rw [pushXY] at h
    rcases Nat.lt_or_ge n 10 with hn | hn
    · rw [if_pos hn] at h
      obtain ht := Option.some_inj.mp h
      subst ht
      rfl
    · rw [if_neg (Nat.not_lt.mpr hn)] at h
      exact absurd h (by simp)

/-- Claim C10 witness: from the concrete constructor state, two plain ticks
keep step 0 and mode Free, and a concrete `stop` order sets step 1. -/
theorem constructor_spec_witness :
    GetStep initTP0 = 0
    ∧ (∃ t, ticksTP (fun _ => odoZ) (fun _ => false) 2 initTP0 = some t
        ∧ t.step = 0 ∧ t.state = state_t.FREE)
    ∧ (stop initTP0).step = 1 := by
  have base := constructor_spec zf zf (fun _ => odoZ) (fun _ => false)
  obtain ⟨t, ht⟩ : ∃ t, ticksTP (fun _ => odoZ) (fun _ => false) 2 initTP0
      = some t := ⟨_, rfl⟩
  have props := base.2.2.2.2.2.1 2 t ht
  exact ⟨base.2.2.2.2.1, ⟨t, ht, props.1, props.2.1⟩,
    (base.2.2.2.2.2.2 initTP0 odoZ 1 1 1 1 1 zf zf).2.2.2.1⟩

/-- Helper: the segment loop started at cursor 0 with at least two waypoints
immediately computes `i - 1` as the wrapped `uint32_t` value 4294967295 and
hits the out-of-bounds branch. -/
theorem segLoop_zero_oob (X Y : ℕ → ℝ) (m : ℕ) (acc : ℝ) (h2 : 2 ≤ m) :
    segLoop X Y m acc 0 = none := by
  rw [segLoop, if_pos (by omega : 0 < m - 1)]
  have hu : u32sub1 0 = 4294967295 := by norm_num [u32sub1]
  rw [hu, arrGet, if_neg (by norm_num)]
  rfl

/-- Helper: `updateXYtoLA` at cursor 0 with at least two waypoints loaded
returns the error branch. -/
theorem updateXYtoLA_zero_oob {s : TPState} (odo : Odo) (h2 : 2 ≤ s.XYn) :
    updateXYtoLA s odo 0 = none := by
  rw [updateXYtoLA]
  simp [arrGet, h2, segLoop_zero_oob]

/-- Helper: dispatching an update from mode DrawPlan runs
`calculateDrawPlan` on the state with `finished` cleared and status bit 8
set. -/
theorem update_drawplan {s : TPState} (odo : Odo) (arr : Bool)
    (hs : s.state = state_t.DRAWPLAN) :
    update s odo arr
      = calculateDrawPlan
          { s with status := s.status ||| 256, finished := false } odo := by
  obtain ⟨st, fin, mo, sp, v1, v2, v3, v4, v5, v6, v7, v8, v9, Xf, Yf, xyn, dn⟩ := s
  simp only at hs
  subst hs
  rfl

/-- Claim C9: every FollowPath order with at least 2 (and, per the assert,
at most 9) waypoints reaches `calculateDrawPlan` step 1 on its first tick,
which calls `updateXYtoLA` with cursor 0; the segment loop there runs from
`i = 0` and reads `X[i-1]`, where `i - 1` wraps to 4294967295 in `uint32_t`
arithmetic, an out-of-bounds access of the ten-element arrays — in this total
embedding the guarded-indexing error branch is reached and the tick has no
successor state. -/
theorem drawplan_first_tick_oob (s : TPState) (xs ys : ℕ → ℝ) (n : ℕ)
    (odo : Odo) (arr : Bool) (h2 : 2 ≤ n) (h10 : n < 10) :
    ∃ t, pushXY s xs ys n = some t ∧ update t odo arr = none := by
  refine ⟨_, by rw [pushXY, if_pos h10], ?_⟩
  rw [update_drawplan odo arr rfl, calculateDrawPlan, if_pos rfl]
  show (updateXYtoLA _ odo 0).bind _ = none
  rw [updateXYtoLA_zero_oob odo h2]
  rfl

/-- Claim C9 witness: a concrete 2-waypoint path is accepted and its first
DrawPlan tick hits the out-of-bounds branch. -/
theorem drawplan_first_tick_oob_witness :
    ∃ t, pushXY initTP0 zf zf 2 = some t ∧ update t odoZ false = none :=
  drawplan_first_tick_oob initTP0 zf zf 2 odoZ false (by norm_num) (by norm_num)

/-- Helper: closed form of the segment loop when started at a cursor of at
least 1 (all accesses in bounds): it adds the lengths of the segments
`(j-1, j)` for `j` from the cursor up to `XYn - 2`. -/
theorem segLoop_eval (X Y : ℕ → ℝ) (m i : ℕ) (acc : ℝ)
    (hm : m ≤ 10) (hi : 1 ≤ i) :
    segLoop X Y m acc i
      = some (acc + ∑ j ∈ Finset.Ico i (m - 1),
          Real.sqrt ((X j - X (j - 1)) ^ 2 + (Y j - Y (j - 1)) ^ 2)) := by
  rw [segLoop]
  split_ifs with h
  · have hu : u32sub1 i = i - 1 := by
      unfold u32sub1
      omega
    have hb1 : i - 1 < 10 := by omega
    have hb2 : i < 10 := by omega
    rw [hu]
    simp only [arrGet, hb1, hb2, if_true, Option.some_bind]
    rw [segLoop_eval X Y m (i + 1) _ hm (by omega)]
    simp only [Option.some.injEq]
    rw [Finset.sum_eq_sum_Ico_succ_bot h]
    ring
  · have he : Finset.Ico i (m - 1) = ∅ := Finset.Ico_eq_empty (by omega)
    rw [he, Finset.sum_empty, add_zero]
termination_by m - 1 - i
decreasing_by omega

/-- Claim C5 (amended): whenever `updateXYtoLA` recomputes the setpoints for
a waypoint cursor `n ≥ 1`, the stored linear setpoint equals the cumulative
linear position plus the distance to waypoint `n` plus the sum of the
straight-line lengths of the segments `(j-1, j)` for `j` from `n` through
`XYn - 2` — i.e. the accumulated segments start at `(n-1, n)` and END at
`(XYn-3, XYn-2)`, one segment EARLIER than the claimed `(n, n+1) ...` up to
the final waypoint (the final segment `(XYn-2, XYn-1)` is never included);
for `n = 0` the computation is out of bounds (claim C9). -/
theorem updateXYtoLA_value (s : TPState) (odo : Odo) (n : ℕ)
    (h1 : 1 ≤ n) (h10 : n < 10) (hX : s.XYn ≤ 10) :
    ∃ t, updateXYtoLA s odo n = some t
      ∧ t.linearSetPoint
        = (odo.Lmm : ℝ) / 1000
          + Real.sqrt ((s.X n - (odo.Xmm : ℝ) / 1000) ^ 2
              + (s.Y n - (odo.Ymm : ℝ) / 1000) ^ 2)
          + ∑ j ∈ Finset.Ico n (s.XYn - 1),
              Real.sqrt ((s.X j - s.X (j - 1)) ^ 2
                + (s.Y j - s.Y (j - 1)) ^ 2) := by
  rw [updateXYtoLA]
  simp only [arrGet, h10, if_true, Option.some_bind]
  by_cases h2 : 2 ≤ s.XYn
  · rw [if_pos h2, segLoop_eval s.X s.Y s.XYn n _ hX h1]
    exact ⟨_, rfl, rfl⟩
  · rw [if_neg h2]
    refine ⟨_, rfl, ?_⟩
    have he : Finset.Ico n (s.XYn - 1) = ∅ := Finset.Ico_eq_empty (by omega)
    rw [he, Finset.sum_empty, add_zero]

/-- Claim C5 witness: a concrete recomputation at cursor 1 of a 3-waypoint
path (waypoints (0,0), (1,0), (5,0) from the origin) succeeds and stores
`0 + dist(pose, W1) + dist(W0, W1) = 2`. -/
theorem updateXYtoLA_value_witness :
    ∃ t, updateXYtoLA s5 odoZ 1 = some t ∧ t.linearSetPoint = 2 := by
  obtain ⟨t, ht, hval⟩ := updateXYtoLA_value s5 odoZ 1 (by norm_num)
    (by norm_num) (by show (3 : ℕ) ≤ 10; norm_num)
  refine ⟨t, ht, ?_⟩
  rw [hval]
  have hIco : Finset.Ico 1 (s5.XYn - 1) = {1} := by decide
  rw [hIco, Finset.sum_singleton]
  have h1 : ((1 : ℕ) : ℕ) - 1 = 0 := rfl
  norm_num [s5, odoZ, Real.sqrt_one]

/-- Claim C5 counterexample: at cursor 1 of the 3-waypoint path (0,0),
(1,0), (5,0) observed from the origin, the code stores
`0 + dist(pose, W1) + dist(W0, W1) = 2`, not the claimed
`0 + dist(pose, W1) + dist(W1, W2) = 5` (sum of the segments subsequent to
the cursor up to the final waypoint). -/
theorem drawplan_sum_cex :
    (updateXYtoLA s5 odoZ 1).map (fun t => t.linearSetPoint)
      ≠ some ((odoZ.Lmm : ℝ) / 1000
          + Real.sqrt ((s5.X 1 - (odoZ.Xmm : ℝ) / 1000) ^ 2
              + (s5.Y 1 - (odoZ.Ymm : ℝ) / 1000) ^ 2)
          + ∑ j ∈ Finset.Ico 1 (s5.XYn - 1),
              Real.sqrt ((s5.X (j + 1) - s5.X j) ^ 2
                + (s5.Y (j + 1) - s5.Y j) ^ 2)) := by
  obtain ⟨t, ht, hval⟩ := updateXYtoLA_value s5 odoZ 1 (by norm_num)
    (by norm_num) (by show (3 : ℕ) ≤ 10; norm_num)
  rw [ht]
  simp only [Option.map_some', ne_eq, Option.some.injEq]
  rw [hval]
  have hIco : Finset.Ico 1 (s5.XYn - 1) = {1} := by decide
  rw [hIco, Finset.sum_singleton, Finset.sum_singleton]
  have h16 : Real.sqrt 16 = 4 := by
    rw [show (16 : ℝ) = 4 ^ 2 by norm_num,
      Real.sqrt_sq (by norm_num : (0 : ℝ) ≤ 4)]
  norm_num [s5, odoZ, Real.sqrt_one, h16]

/-- Claim C6: on every DrawPlan update tick that yields a successor state,
the waypoint cursor is monotonically non-decreasing (outside the one-off
cursor reset of step 1), and in the cursor-stepping state (step 2) it
advances to the next waypoint exactly when the remaining distance from the
current cumulative linear position to the recomputed per-waypoint setpoint
(`Lm + dist(pose, W[n])`) is within the 0.1 m tolerance. -/
theorem drawplan_cursor (s : TPState) (odo : Odo) (arr : Bool) (t : TPState)
    (hm : s.state = state_t.DRAWPLAN) (hu : update s odo arr = some t) :
    (s.step ≠ 1 → s.drawN ≤ t.drawN)
    ∧ (s.step = 2 →
        ((t.drawN = s.drawN + 1 ∨ t.drawN = s.drawN)
         ∧ (t.drawN = s.drawN + 1 ↔
            |(odo.Lmm : ℝ) / 1000
              + Real.sqrt ((s.X s.drawN - (odo.Xmm : ℝ) / 1000) ^ 2
                  + (s.Y s.drawN - (odo.Ymm : ℝ) / 1000) ^ 2)
              - odo.linearPos| ≤ 0.1))) := by
  obtain ⟨st, fin, mo, sp, v1, v2, v3, v4, v5, v6, v7, v8, v9, Xf, Yf, xyn, dn⟩ := s
  simp only at hm ⊢
  subst hm
  rw [update_drawplan odo arr rfl, calculateDrawPlan] at hu
  simp only at hu
  by_cases h1 : sp = 1
  · exact ⟨fun hc => absurd h1 hc, fun hc => absurd (h1 ▸ hc) (by decide)⟩
  · rw [if_neg h1] at hu
    by_cases h2 : sp = 2
    · subst h2
      rw [if_pos rfl] at hu
      rw [drawStep2] at hu
      simp only at hu
      obtain ⟨t1, ha, hb⟩ := Option.bind_eq_some.mp hu
      obtain ⟨g1, g2, g3, g4, g5, g6, g7, g8, g9, g10⟩ := updateXYtoLA_some ha
      simp only at g4 g10
      by_cases htol : fabs (t1.linearNextSetPoint - odo.linearPos) ≤ 0.1
      · rw [if_pos htol] at hb
        obtain ⟨k1, k2, k3, k4, k5, k6, k7, k8, k9, k10⟩ := updateXYtoLA_some hb
        simp only at k4
        have hdn : t.drawN = dn + 1 := by rw [k4, g4]
        rw [fabs_eq_abs, g10] at htol
        refine ⟨fun _ => by omega, fun _ => ⟨Or.inl hdn, ?_⟩⟩
        exact ⟨fun _ => htol, fun _ => hdn⟩
      · rw [if_neg htol] at hb
        obtain hbt := Option.some_inj.mp hb
        subst hbt
        rw [fabs_eq_abs, g10] at htol
        refine ⟨fun _ => by omega, fun _ => ⟨Or.inr g4, ?_⟩⟩
        constructor
        · intro hL
          rw [g4] at hL
          omega
        · intro hR
          exact absurd hR htol
    · rw [if_neg h2] at hu
      by_cases h3 : sp = 3
      · subst h3
        rw [if_pos rfl] at hu
        obtain ⟨t1, ha, hb⟩ := Option.map_eq_some'.mp hu
        have g4 : t1.drawN = dn := by
          have := (updateXYtoLA_some ha).2.2.2.1
          simpa using this
        subst hb
        refine ⟨fun _ => ?_, fun hc => absurd hc h2⟩
        split_ifs
        · show dn ≤ t1.drawN
          omega
        · omega
      · rw [if_neg h3] at hu
        by_cases h4 : sp = 4
        · subst h4
          rw [if_pos rfl] at hu
          obtain ⟨t1, ha, hb⟩ := Option.map_eq_some'.mp hu
          have g4 : t1.drawN = dn := by
            have := (updateXYtoLA_some ha).2.2.2.1
            simpa using this
          subst hb
          refine ⟨fun _ => ?_, fun hc => absurd hc h2⟩
          show dn ≤ t1.drawN
          omega
        · rw [if_neg h4] at hu
          obtain hbt := Option.some_inj.mp hu
          subst hbt
          exact ⟨fun _ => le_rfl, fun hc => absurd hc h2⟩

/-- Helper: a DrawPlan step-2 tick whose recomputed per-waypoint setpoint is
still farther than the tolerance succeeds without advancing the cursor and
returns the recomputed state. -/
theorem update_drawplan_step2_noadv {s : TPState} {odo : Odo} (arr : Bool)
    {t1 : TPState} (hm : s.state = state_t.DRAWPLAN) (hstep : s.step = 2)
    (h1 : updateXYtoLA { s with status := s.status ||| 256, finished := false }
        odo s.drawN = some t1)
    (hcond : ¬ (fabs (t1.linearNextSetPoint - odo.linearPos) ≤ 0.1)) :
    update s odo arr = some t1 := by
  obtain ⟨st, fin, mo, sp, v1, v2, v3, v4, v5, v6, v7, v8, v9, Xf, Yf, xyn, dn⟩ := s
  simp only at hm hstep h1
  subst hm
  subst hstep
  rw [update_drawplan odo arr rfl, calculateDrawPlan]
  norm_num
  rw [drawStep2]
  show (updateXYtoLA _ odo dn).bind _ = some t1
  rw [h1]
  simp only [Option.some_bind]
  rw [if_neg hcond]

/-- Claim C6 witness: a concrete step-2 tick on the 3-waypoint path at
cursor 1 (per-waypoint setpoint distance 1 m, outside the tolerance)
succeeds and keeps the cursor at 1. -/
theorem drawplan_cursor_witness :
    ∃ t, update s5 odoZ false = some t ∧ s5.drawN ≤ t.drawN := by
  obtain ⟨t1, h1, -⟩ := updateXYtoLA_value
    { s5 with status := s5.status ||| 256, finished := false } odoZ 1
    (by norm_num) (by norm_num) (by show (3 : ℕ) ≤ 10; norm_num)
  have hlnsp := (updateXYtoLA_some h1).2.2.2.2.2.2.2.2.2
  have hv : t1.linearNextSetPoint = 1 := by
    rw [hlnsp]
    norm_num [s5, odoZ, Real.sqrt_one]
  have hcond : ¬ (fabs (t1.linearNextSetPoint - odoZ.linearPos) ≤ 0.1) := by
    rw [fabs_eq_abs, hv]
    norm_num [odoZ]
  have hupd : update s5 odoZ false = some t1 :=
    update_drawplan_step2_noadv false rfl rfl h1 hcond
  refine ⟨t1, hupd, ?_⟩
  exact (drawplan_cursor s5 odoZ false t1 rfl hupd).1 (by decide)

/-- Claim C3: on an obstacle-check-rate tick of the scheduler with the
enable flag set, a detected obstruction while the trajectory machine is
in progress (not finished) issues Stop to the trajectory machine: the tick
succeeds, the trajectory mode ends the tick as Stop (overriding the prior
mode), and no queued order is popped on that tick. -/
theorem obstacle_forces_stop (mc : MCState) (inp : MCInput)
    (he : mc.enable = true) (ht : (mc.localTime + 5) % 200 = 0)
    (hd : inp.detect = true) (hf : mc.tp.finished = false) :
    ∃ r, MCCompute mc inp = some r ∧ r.st.tp.state = state_t.STOP
      ∧ r.popped = none := by
  obtain ⟨stat, en, sg, lt, q, tp⟩ := mc
  simp only at he ht hf
  subst he
  simp [MCCompute, mcStop, stop, tpCompute, update, ht, hd, hf]

/-- Claim C3 witness: a concrete obstacle-rate tick with an in-progress
Linear order and a detected obstruction ends with the trajectory machine in
mode Stop. -/
theorem obstacle_forces_stop_witness :
    ∃ r, MCCompute mcW3 inpW3 = some r ∧ r.st.tp.state = state_t.STOP
      ∧ r.popped = none :=
  obstacle_forces_stop mcW3 inpW3 rfl (by decide) rfl rfl

/-- Claim C8: on every trajectory-rate tick of the scheduler with enable
set that yields a result, the trajectory machine is computed unconditionally
with the period hint scaled by the ratio of the trajectory period to the
base period (`period * 200 / 5`); a pop from the command queue is attempted
only when the trajectory machine reports finished (never when it is in
progress, and a no-op on an empty queue), and at most one order — exactly
the queue head — is popped, leaving the tail. -/
theorem traj_tick_spec (mc : MCState) (inp : MCInput) (r : MCResult)
    (he : mc.enable = true) (ht : (mc.localTime + 5) % 200 = 0)
    (hr : MCCompute mc inp = some r) :
    r.tpArg = some (inp.period * 200 / 5)
    ∧ (mc.tp.finished = false → r.popped = none ∧ r.st.queue = mc.queue)
    ∧ (mc.queue = [] → r.popped = none ∧ r.st.queue = [])
    ∧ (∀ c cs, mc.queue = c :: cs → mc.tp.finished = true →
        r.popped = some c ∧ r.st.queue = cs) := by
  obtain ⟨stat, en, sg, lt, q, tp⟩ := mc
  simp only at he ht ⊢
  subst he
  by_cases hd : inp.detect = true
  all_goals cases hfin : tp.finished
  all_goals rcases q with _ | ⟨chd, ctl⟩
  all_goals simp [MCCompute, mcStop, stop, ht, hd, hfin] at hr
  all_goals obtain ⟨tp2, h2, h3⟩ := hr
  all_goals subst h3
  all_goals refine ⟨rfl, fun hx => ?_, fun hx => ?_, fun c cs hq hf2 => ?_⟩
  all_goals first
    | exact ⟨rfl, rfl⟩
    | exact Bool.noConfusion hx
    | exact absurd hx (List.cons_ne_nil chd ctl)
    | exact Bool.noConfusion hf2
    | exact absurd hq.symm (List.cons_ne_nil c cs)
    | (rw [List.cons.injEq] at hq
       obtain ⟨hq1, hq2⟩ := hq
       subst hq1
       subst hq2
       exact ⟨rfl, rfl⟩)

/-- Claim C8 witness: a concrete trajectory-rate tick on an idle machine
with one queued GoLinear order pops exactly that order and invokes the
trajectory compute with hint `5 * 200 / 5`. -/
theorem traj_tick_spec_witness :
    ∃ r, MCCompute mcW8 inpW8 = some r
      ∧ r.tpArg = some ((5 : ℝ) * 200 / 5)
      ∧ r.popped = some (cmd_t.goLin 1)
      ∧ r.st.queue = [] := by
  obtain ⟨r, hr⟩ : ∃ r, MCCompute mcW8 inpW8 = some r := ⟨_, rfl⟩
  have base := traj_tick_spec mcW8 inpW8 r rfl (by decide) hr
  obtain ⟨hp, hqu⟩ := base.2.2.2 (cmd_t.goLin 1) [] rfl rfl
  exact ⟨r, hr, base.1, hp, hqu⟩

end MotionControl
